import Mathlib

/-!
Formal model of the PDF outline extractor (`main.py` / `helper.py`).

The program is embedded shallowly:

* The external PDF layer (`fitz`) is modelled by the data types `Span`,
  `Line`, `Block`, `Page`, `Doc`: for every page it provides the styled
  text runs (text, font size, font name, style flags, bounding box) and
  the page geometry, plus the optional embedded table of contents.
  `fitz.open` is modelled as an `Except String Doc` value: `.error msg`
  is an unrecoverable failure to open/parse the source.
* Numbers (font sizes, coordinates, scores) are modelled as exact
  rationals `ℚ`; the Python floats are IEEE doubles, whose rounding is
  not relevant to any claim proved here.  `numpy.std` contains a square
  root; it is modelled by the computable `approxSqrt` below, and every
  theorem in this file is independent of that function's values.
* Python `str` operations (`strip`, `lower`, `isupper`, `istitle`,
  `isdigit`, `split`, substring `in`) and the concrete regular
  expressions used by the program are implemented directly over
  `List Char` with ASCII semantics (the program's own heuristics are
  ASCII-oriented).
-/

set_option maxRecDepth 20000

/- Batteries marks the rational-number operations `@[irreducible]`, which
blocks kernel evaluation of the concrete documents below; restore the
default reducibility (this affects only definitional unfolding, not the
logic). -/
set_option allowUnsafeReducibility true
attribute [local semireducible] Rat.mul Rat.add Rat.sub Rat.div Rat.inv Rat.ofScientific

/-! ## Python string primitives -/

/-- Python's `\s` / `str.strip` whitespace class (ASCII part). -/
def pySpace (c : Char) : Bool :=
  c = ' ' || c = '\t' || c = '\n' || c = '\r' || c = '\x0b' || c = '\x0c'

/-- Python's `\w` word-character class (ASCII part): letters, digits, `_`. -/
def pyWordChar (c : Char) : Bool :=
  c.isAlpha || c.isDigit || c = '_'

/-- `str.strip()` on a character list. -/
def stripChars (l : List Char) : List Char :=
  ((l.dropWhile pySpace).reverse.dropWhile pySpace).reverse

/-- `str.strip()`. -/
def pyStrip (s : String) : String := ⟨stripChars s.data⟩

/-- `str.lower()` (ASCII). -/
def pyLower (s : String) : String := ⟨s.data.map Char.toLower⟩

/-- Bool prefix test on character lists. -/
def isPrefixCL : List Char → List Char → Bool
  | [], _ => true
  | _ :: _, [] => false
  | a :: as, b :: bs => a = b && isPrefixCL as bs

/-- Python's substring test `needle in hay` on character lists. -/
def hasSubCL (needle : List Char) : List Char → Bool
  | [] => needle.isEmpty
  | c :: rest => isPrefixCL needle (c :: rest) || hasSubCL needle rest

/-- Python's substring test `needle in hay`. -/
def pyIn (needle hay : String) : Bool := hasSubCL needle.data hay.data

/-- `str.isdigit()` (ASCII digits). -/
def pyIsDigit (s : String) : Bool := !s.data.isEmpty && s.data.all Char.isDigit

/-- `str.isupper()` (ASCII): at least one cased character and no lower-case one. -/
def pyIsUpper (s : String) : Bool :=
  s.data.any (fun c => c.isUpper || c.isLower) && s.data.all (fun c => !c.isLower)

/-- Scanner for `str.istitle()`: the flag records whether the previous
character was cased. -/
def pyIsTitleGo : Bool → List Char → Bool
  | _, [] => true
  | prevCased, c :: rest =>
    if c.isUpper then (if prevCased then false else pyIsTitleGo true rest)
    else if c.isLower then (if prevCased then pyIsTitleGo true rest else false)
    else pyIsTitleGo false rest

/-- `str.istitle()` (ASCII): upper-case letters only after uncased characters,
lower-case only after cased ones, and at least one cased character. -/
def pyIsTitle (s : String) : Bool :=
  s.data.any (fun c => c.isUpper || c.isLower) && pyIsTitleGo false s.data

/-- Number of words of `str.split()`: maximal runs of non-whitespace. -/
def wordCountGo : Bool → List Char → Nat
  | _, [] => 0
  | inWord, c :: rest =>
    if pySpace c then wordCountGo false rest
    else (if inWord then 0 else 1) + wordCountGo true rest

/-- `len(s.split())`. -/
def pyWordCount (s : String) : Nat := wordCountGo false s.data

/-- `' '.join(parts)`. -/
def joinSpace (parts : List String) : String := String.intercalate " " parts

/-- Python `round` on a rational: round half to even (as for floats). -/
def pyRound (q : ℚ) : Int :=
  let f : Int := ⌊q⌋
  if q - f < 1/2 then f
  else if (1:ℚ)/2 < q - f then f + 1
  else if f % 2 = 0 then f else f + 1

/-- Model of `numpy`'s floating point square root: a few Newton steps on
rationals.  No theorem below depends on the values of this function. -/
def approxSqrt (q : ℚ) : ℚ :=
  if q ≤ 0 then 0 else
  (List.range 8).foldl (fun g _ => (g + q / g) / 2) (if q < 1 then 1 else q)

/-! ## Regular expression fragments

Every regex the program uses is implemented as a dedicated matcher.
A matcher for a pattern used in `re.sub` has type
`List Char → Option (List Char)` and returns the remainder after the
(greedy) match at the current position; `pySubCL` below drives the
left-to-right scan of `re.sub`.  Patterns used only in `re.match` are
implemented as Bool-valued prefix tests. -/

/-- Consume a literal. -/
def eatLit (lit : List Char) (cs : List Char) : Option (List Char) :=
  if isPrefixCL lit cs then some (cs.drop lit.length) else none

/-- Consume `\s*` (greedy; no backtracking is needed anywhere it is used,
because the following token never matches a whitespace character). -/
def eatWsStar (cs : List Char) : List Char := cs.dropWhile pySpace

/-- Consume `\s+`. -/
def eatWsPlus (cs : List Char) : Option (List Char) :=
  match cs with
  | c :: rest => if pySpace c then some (rest.dropWhile pySpace) else none
  | [] => none

/-- Consume `\d+` (greedy; the following token never matches a digit). -/
def eatDigitsPlus (cs : List Char) : Option (List Char) :=
  match cs with
  | c :: rest => if c.isDigit then some (rest.dropWhile Char.isDigit) else none
  | [] => none

/-- `$`: end of string, or just before a final newline. -/
def atDollar (cs : List Char) : Bool :=
  match cs with
  | [] => true
  | ['\n'] => true
  | _ => false

/-- Greedy `(G)+` tail: after one successful `G`, keep matching `G` while it
consumes input.  Fuel is the length of the input, enough because every
group used with `+` consumes at least one character per iteration. -/
def repMatch (g : List Char → Option (List Char)) : Nat → List Char → List Char
  | 0, cs => cs
  | n + 1, cs =>
    match g cs with
    | some r => if r.length < cs.length then repMatch g n r else cs
    | none => cs

/-- `re.sub` scan: at each position try the matcher; on a match emit the
replacement and continue after the consumed text.  Fuel is the length of
the scanned text (each step consumes at least one character). -/
def pySubGo (m : List Char → Option (List Char)) (repl : List Char) :
    Nat → List Char → List Char
  | _, [] => []
  | 0, l => l
  | n + 1, c :: rest =>
    match m (c :: rest) with
    | some r =>
      if r.length < rest.length + 1 then repl ++ pySubGo m repl n r
      else repl ++ pySubGo m repl n rest
    | none => c :: pySubGo m repl n rest

/-- `re.sub(pattern, repl, s)` for a pattern implemented by matcher `m`. -/
def pySub (m : List Char → Option (List Char)) (repl : String) (s : String) : String :=
  ⟨pySubGo m repl.data s.data.length s.data⟩

/-! ## Matchers for the regexes of `_cleanup_extracted_title` (main.py) -/

/-- Turn a group matcher into a greedy `(G)+` matcher. -/
def plusOf (g : List Char → Option (List Char)) (cs : List Char) : Option (List Char) :=
  match g cs with
  | some r => some (repMatch g cs.length r)
  | none => none

/-- One group of `(RFP:\s*R\s*)+`. -/
def mGrpRFPR (cs : List Char) : Option (List Char) := do
  let r ← eatLit "RFP:".data cs
  let r ← eatLit "R".data (eatWsStar r)
  pure (eatWsStar r)

/-- `(RFP:\s*R\s*)+`. -/
def mRFPRplus : List Char → Option (List Char) := plusOf mGrpRFPR

/-- One group of `(quest\s*f\s*)+`. -/
def mGrpQuestF (cs : List Char) : Option (List Char) := do
  let r ← eatLit "quest".data cs
  let r ← eatLit "f".data (eatWsStar r)
  pure (eatWsStar r)

/-- `(quest\s*f\s*)+`. -/
def mQuestFplus : List Char → Option (List Char) := plusOf mGrpQuestF

/-- `R\s*quest\s*for?`. -/
def mRQuestFor (cs : List Char) : Option (List Char) := do
  let r ← eatLit "R".data cs
  let r ← eatLit "quest".data (eatWsStar r)
  let r ← eatLit "fo".data (eatWsStar r)
  pure (match r with | 'r' :: rest => rest | _ => r)

/-- `equest`. -/
def mEquest : List Char → Option (List Char) := eatLit "equest".data

/-- `Pr\s*oposal`. -/
def mPrOposal (cs : List Char) : Option (List Char) := do
  let r ← eatLit "Pr".data cs
  eatLit "oposal".data (eatWsStar r)

/-- `oposal`. -/
def mOposal : List Char → Option (List Char) := eatLit "oposal".data

/-- One group of `(\s*r\s*Pr\s*)+`. -/
def mGrpRPr (cs : List Char) : Option (List Char) := do
  let r ← eatLit "r".data (eatWsStar cs)
  let r ← eatLit "Pr".data (eatWsStar r)
  pure (eatWsStar r)

/-- `(\s*r\s*Pr\s*)+`. -/
def mRPrPlus : List Char → Option (List Char) := plusOf mGrpRPr

/-- `RFP:\s*RFP:`. -/
def mRFPRFP (cs : List Char) : Option (List Char) := do
  let r ← eatLit "RFP:".data cs
  eatLit "RFP:".data (eatWsStar r)

/-- `Request\s+for\s+o\s*$`. -/
def mRequestForO (cs : List Char) : Option (List Char) := do
  let r ← eatLit "Request".data cs
  let r ← eatWsPlus r
  let r ← eatLit "for".data r
  let r ← eatWsPlus r
  let r ← eatLit "o".data r
  if r.all pySpace then pure [] else none

/-- `RFP:\s*Request\s+for\s+oposal.*` (`.` does not match a newline). -/
def mRFPRequestForOposal (cs : List Char) : Option (List Char) := do
  let r ← eatLit "RFP:".data cs
  let r ← eatLit "Request".data (eatWsStar r)
  let r ← eatWsPlus r
  let r ← eatLit "for".data r
  let r ← eatWsPlus r
  let r ← eatLit "oposal".data r
  pure (r.dropWhile (fun c => c ≠ '\n'))

/-- `quest\s+for\s+Proposal.*` (`.` does not match a newline). -/
def mQuestForProposal (cs : List Char) : Option (List Char) := do
  let r ← eatLit "quest".data cs
  let r ← eatWsPlus r
  let r ← eatLit "for".data r
  let r ← eatWsPlus r
  let r ← eatLit "Proposal".data r
  pure (r.dropWhile (fun c => c ≠ '\n'))

/-! ## `_clean_text` (main.py) -/

/-- Emit a run of `n` copies of `c`: `re.sub(r'(.)\1{3,}', r'\1', ...)`
collapses runs of 4 or more identical characters to a single one
(`.` does not match a newline, so newline runs are kept). -/
def runOut (c : Char) (n : Nat) : List Char :=
  if 4 ≤ n ∧ c ≠ '\n' then [c] else List.replicate n c

/-- Scanner for run collapsing. -/
def collapseRunsGo (c : Char) (n : Nat) : List Char → List Char
  | [] => runOut c n
  | d :: rest => if d = c then collapseRunsGo c (n + 1) rest
                 else runOut c n ++ collapseRunsGo d 1 rest

/-- `re.sub(r'(.)\1{3,}', r'\1', text)`. -/
def collapseRuns : List Char → List Char
  | [] => []
  | c :: rest => collapseRunsGo c 1 rest

/-- `re.sub(r'([a-z])([A-Z])', r'\1 \2', text)`: insert a space at each
lower-to-upper boundary; the scan resumes after the replaced pair. -/
def camelSpace : List Char → List Char
  | a :: b :: rest =>
    if a.isLower && b.isUpper then a :: ' ' :: b :: camelSpace rest
    else a :: camelSpace (b :: rest)
  | l => l

/-- Character class `[^\w\s]`. -/
def isJunkChar (c : Char) : Bool := !(pyWordChar c || pySpace c)

/-- `re.sub(r'[^\w\s]*$', '', text)`: remove the run of `[^\w\s]` characters
at the end of the string (or just before a final newline). -/
def stripTrailingJunk (l : List Char) : List Char :=
  match l.reverse with
  | '\n' :: rest => ('\n' :: rest.dropWhile isJunkChar).reverse
  | r => (r.dropWhile isJunkChar).reverse

namespace PDFOutlineExtractor

/-- `PDFOutlineExtractor._clean_text`. -/
def _clean_text (text : String) : String :=
  if text = "" then "" else
  let t := collapseRuns text.data
  let t := (pySub eatWsPlus " " ⟨t⟩).data
  let t := camelSpace t
  let t := t.dropWhile isJunkChar
  let t := stripTrailingJunk t
  pyStrip ⟨t⟩

/-- The hard-coded canonical full "Ontario Digital Library" RFP title. -/
def fullODLTitle : String :=
  "RFP:Request for Proposal To Present a Proposal for Developing the Business Plan for the Ontario Digital Library"

/-- The hard-coded canonical partial RFP title. -/
def partialRFPTitle : String := "RFP:Request for Proposal"

/-- The chain of `re.sub` repairs at the start of `_cleanup_extracted_title`
(main.py lines 470-486), producing the repaired title text. -/
def cleanupSubs (title : String) : String :=
  let t := pySub mRFPRplus "RFP:" title
  let t := pySub mQuestFplus "quest for " t
  let t := pySub mRQuestFor "Request for" t
  let t := pySub mEquest "Request" t
  let t := pySub mPrOposal "Proposal" t
  let t := pySub mOposal "Proposal" t
  let t := pySub mRPrPlus " " t
  let t := pySub mRFPRFP "RFP:" t
  pySub eatWsPlus " " t

/-- `PDFOutlineExtractor._cleanup_extracted_title`. -/
def _cleanup_extracted_title (title : String) : String :=
  if title = "" then "" else
  let original := title
  let t := cleanupSubs title
  let afterBlock : String → String := fun t =>
    let t := pySub mRequestForO "Request for Proposal" t
    let t := pySub mRFPRequestForOposal "RFP:Request for Proposal" t
    let t := pySub mQuestForProposal "Request for Proposal" t
    if pyIn "RFP:" t && (pyIn "Request" t || pyIn "quest" t) && pyIn "Proposal" t
    then fullODLTitle
    else pyStrip t
  if pyIn "RFP:" t && (pyIn "quest" t || pyIn "Request" t) then
    let combined := t ++ " " ++ original
    let has_request := pyIn "Request" combined || pyIn "quest" combined || pyIn "equest" combined
    let has_proposal := pyIn "Proposal" combined || pyIn "oposal" combined
    -- the companion keyword flags are computed by the source but never used:
    let _has_present := pyIn "Present" combined
    let _has_developing := pyIn "Developing" combined
    let _has_business := pyIn "Business" combined
    let _has_ontario := pyIn "Ontario" combined
    let _has_digital := pyIn "Digital" combined
    let _has_library := pyIn "Library" combined
    if has_request && has_proposal then fullODLTitle
    else if has_request then partialRFPTitle
    else afterBlock t
  else afterBlock t

end PDFOutlineExtractor

/-! ## Data model of the external PDF layer -/

/-- A bounding box `(x0, y0, x1, y1)`; `y0` is the top edge. -/
structure Rect where
  x0 : ℚ
  y0 : ℚ
  x1 : ℚ
  y1 : ℚ
deriving DecidableEq

/-- A styled text run (`span` of the PDF layer). -/
structure Span where
  text : String
  size : ℚ
  font : String
  flags : Nat
  bbox : Rect
deriving DecidableEq

/-- A visual line: a list of spans. -/
structure Line where
  spans : List Span
deriving DecidableEq

/-- A text block (image blocks, which carry no `lines` key, are omitted
from the model: both programs skip them with `if "lines" in block`). -/
structure Block where
  lines : List Line
deriving DecidableEq

/-- A page: its text blocks and its geometry (`page.rect`). -/
structure Page where
  blocks : List Block
  width : ℚ
  height : ℚ
deriving DecidableEq

/-- One entry of the embedded table of contents: `(level, title, page)`. -/
structure TocEntry where
  level : Int
  title : String
  page : Int
deriving DecidableEq

/-- An opened document: pages plus the embedded table of contents. -/
structure Doc where
  pages : List Page
  toc : List TocEntry
deriving DecidableEq

/-- One outline entry `{level, text, page}` of the final result. -/
structure OutlineEntry where
  level : String
  text : String
  page : Int
deriving DecidableEq

/-- The caller-facing result.  The Python result is a dict; `error` is
`some msg` exactly when the dict carries an `"error"` key. -/
structure ExtractResult where
  title : String
  outline : List OutlineEntry
  error : Option String
deriving DecidableEq

/-- `page.get_text()` (plain text mode): the spans of each line
concatenated, each line terminated by a newline. -/
def Page.getText (p : Page) : String :=
  ⟨p.blocks.flatMap (fun b => b.lines.flatMap (fun l => l.spans.flatMap (·.text.data) ++ ['\n']))⟩

/-! ## Matchers for the heading regexes of main.py

All these patterns are applied with `re.IGNORECASE`; the matchers operate
on the lower-cased character list, and the case classes `[A-Z]` / `[a-z]`
become "any ASCII letter". -/

/-- Consume one ASCII letter (`[A-Z]` under `re.IGNORECASE`). -/
def eatAlphaOne (cs : List Char) : Option (List Char) :=
  match cs with
  | c :: rest => if c.isAlpha then some rest else none
  | [] => none

/-- Literal followed by `$`. -/
def litDollar (w : List Char) (l : List Char) : Bool :=
  match eatLit w l with
  | some r => atDollar r
  | none => false

/-- `^(Chapter|CHAPTER)\s+\d+` (lower-cased). -/
def mH1Chapter (l : List Char) : Bool :=
  (do
    let r ← eatLit "chapter".data l
    let r ← eatWsPlus r
    eatDigitsPlus r).isSome

/-- `^(Appendix|APPENDIX)\s*[A-Z]?:?\s*` (lower-cased); everything after
the word is optional. -/
def mH1Appendix (l : List Char) : Bool :=
  match eatLit "appendix".data l with
  | some r =>
    let r := eatWsStar r
    let r := match r with
      | c :: t => if c.isAlpha then t else c :: t
      | [] => []
    let r := match r with
      | ':' :: t => t
      | t => t
    let _ := eatWsStar r
    true
  | none => false

/-- `^\d+\.\s+[A-Z].*` (lower-cased). -/
def mH1NumDot (l : List Char) : Bool :=
  (do
    let r ← eatDigitsPlus l
    let r ← eatLit ".".data r
    let r ← eatWsPlus r
    eatAlphaOne r).isSome

/-- `^(Summary|Background|Introduction|Overview|Conclusion|References|Acknowledgements?)$`
(lower-cased). -/
def mH1Words (l : List Char) : Bool :=
  litDollar "summary".data l || litDollar "background".data l ||
  litDollar "introduction".data l || litDollar "overview".data l ||
  litDollar "conclusion".data l || litDollar "references".data l ||
  litDollar "acknowledgements".data l || litDollar "acknowledgement".data l

/-- `^(Table\s+of\s+Contents|Revision\s+History)$` (lower-cased). -/
def mH1TocRev (l : List Char) : Bool :=
  (match (do
      let r ← eatLit "table".data l
      let r ← eatWsPlus r
      let r ← eatLit "of".data r
      let r ← eatWsPlus r
      eatLit "contents".data r) with
   | some r => atDollar r
   | none => false) ||
  (match (do
      let r ← eatLit "revision".data l
      let r ← eatWsPlus r
      eatLit "history".data r) with
   | some r => atDollar r
   | none => false)

/-- `^(Phase|PHASE)\s+(I{1,3}|[123]):?\s*` (lower-cased); after the first
roman/arabic numeral character everything is optional. -/
def mH1Phase (l : List Char) : Bool :=
  match (do
    let r ← eatLit "phase".data l
    eatWsPlus r) with
  | some r =>
    (match r with
     | c :: _ => c = 'i' || c = '1' || c = '2' || c = '3'
     | [] => false)
  | none => false

/-- `^[A-Z][A-Z\s]{10,}$` under `re.IGNORECASE` (lower-cased list): a
letter, then at least ten letters/whitespace up to the end. -/
def mH1AllCaps (l : List Char) : Bool :=
  match l with
  | c :: rest =>
    c.isAlpha && decide (rest.length ≥ 10) && rest.all (fun d => d.isAlpha || pySpace d)
  | [] => false

/-- `^PATHWAY\s+OPTIONS$` (lower-cased). -/
def mH1Pathway (l : List Char) : Bool :=
  match (do
    let r ← eatLit "pathway".data l
    let r ← eatWsPlus r
    eatLit "options".data r) with
  | some r => atDollar r
  | none => false

/-- `^HOPE\s+To\s+SEE\s+You\s+THERE!$` (lower-cased). -/
def mH1Hope (l : List Char) : Bool :=
  match (do
    let r ← eatLit "hope".data l
    let r ← eatWsPlus r
    let r ← eatLit "to".data r
    let r ← eatWsPlus r
    let r ← eatLit "see".data r
    let r ← eatWsPlus r
    let r ← eatLit "you".data r
    let r ← eatWsPlus r
    eatLit "there!".data r) with
  | some r => atDollar r
  | none => false

/-- `^\d+\.\d+\s+[A-Z].*` (lower-cased). -/
def mH2Num (l : List Char) : Bool :=
  (do
    let r ← eatDigitsPlus l
    let r ← eatLit ".".data r
    let r ← eatDigitsPlus r
    let r ← eatWsPlus r
    eatAlphaOne r).isSome

/-- `^\d+\.\d+\.\d+\s+[A-Z].*` (lower-cased). -/
def mH3Num (l : List Char) : Bool :=
  (do
    let r ← eatDigitsPlus l
    let r ← eatLit ".".data r
    let r ← eatDigitsPlus r
    let r ← eatLit ".".data r
    let r ← eatDigitsPlus r
    let r ← eatWsPlus r
    eatAlphaOne r).isSome

/-- `^[A-Z][a-z\s]+:\s*$` under `re.IGNORECASE` (lower-cased list). -/
def mH3Colon (l : List Char) : Bool :=
  match l with
  | c :: rest =>
    c.isAlpha &&
    decide ((rest.takeWhile (fun d => d.isAlpha || pySpace d)).length ≥ 1) &&
    (match rest.dropWhile (fun d => d.isAlpha || pySpace d) with
     | ':' :: tail => tail.all pySpace
     | _ => false)
  | [] => false

/-- `^page\s+\d+` (applied to lower-cased text). -/
def mPageNum (l : List Char) : Bool :=
  (do
    let r ← eatLit "page".data l
    let r ← eatWsPlus r
    eatDigitsPlus r).isSome

namespace PDFOutlineExtractor

/-- `self.h1_patterns`, matched in order with `re.IGNORECASE`. -/
def h1_match (text : String) : Bool :=
  let l := (pyLower text).data
  mH1Chapter l || mH1Appendix l || mH1NumDot l || mH1Words l || mH1TocRev l ||
  mH1Phase l || mH1AllCaps l || mH1Pathway l || mH1Hope l

/-- `self.h2_patterns`. -/
def h2_match (text : String) : Bool :=
  mH2Num (pyLower text).data

/-- `self.h3_patterns`. -/
def h3_match (text : String) : Bool :=
  let l := (pyLower text).data
  mH3Num l || mH3Colon l

/-- The pattern cascade of `_extract_headings_pattern_only`: h1 patterns
first, then h2, then h3. -/
def patternLevel (text : String) : Option String :=
  if h1_match text then some "H1"
  else if h2_match text then some "H2"
  else if h3_match text then some "H3"
  else none

/-- `self.form_keywords`. -/
def form_keywords : List String :=
  ["application form", "grant of ltc", "government servant",
   "designation", "service book", "signature"]

/-- `PDFOutlineExtractor._is_form_document`. -/
def _is_form_document (doc : Doc) : Bool :=
  if doc.pages.length > 5 then false else
  let text := pyLower ⟨(doc.pages.take (min 3 doc.pages.length)).flatMap (fun p => (Page.getText p).data)⟩
  let form_score := (form_keywords.filter (fun k => pyIn k text)).length
  let form_score := if text.length < 800 then form_score + 1 else form_score
  let form_score := if pyIn "ltc" text && pyIn "advance" text then form_score + 2 else form_score
  decide (form_score ≥ 3)

/-- Level mapping of `_process_toc`: 1 → H1, 2 → H2, 3 → H3, otherwise H3. -/
def mapTocLevel (level : Int) : String :=
  if level = 1 then "H1"
  else if level = 2 then "H2"
  else if level = 3 then "H3"
  else "H3"

/-- `PDFOutlineExtractor._process_toc`: entries whose title is empty or
shorter than 3 characters after stripping are skipped. -/
def _process_toc : List TocEntry → List OutlineEntry
  | [] => []
  | e :: rest =>
    if e.title = "" ∨ (pyStrip e.title).length < 3 then _process_toc rest
    else { level := mapTocLevel e.level, text := pyStrip e.title, page := max 1 e.page }
         :: _process_toc rest

/-- Per-line step of `_extract_headings_pattern_only`, threading the
`seen` de-duplication set. -/
def fallbackPageGo (n : Int) : List Line → List String → List OutlineEntry × List String
  | [], seen => ([], seen)
  | l :: rest, seen =>
    let text := pyStrip ⟨l.spans.flatMap (·.text.data)⟩
    if pyLower text ∈ seen ∨ text.length < 3 then fallbackPageGo n rest seen
    else
      match patternLevel text with
      | some lv =>
        let (es, seen') := fallbackPageGo n rest (pyLower text :: seen)
        ({ level := lv, text := text, page := n } :: es, seen')
      | none => fallbackPageGo n rest seen

/-- Page loop of `_extract_headings_pattern_only` (pages are numbered from 1). -/
def fallbackGo : List Page → Int → List String → List OutlineEntry
  | [], _, _ => []
  | p :: ps, n, seen =>
    let (es, seen') := fallbackPageGo n (p.blocks.flatMap (fun b => b.lines)) seen
    es ++ fallbackGo ps (n + 1) seen'

/-- `PDFOutlineExtractor._extract_headings_pattern_only`: the degraded
pattern-only fallback.  It performs no position or font analysis. -/
def _extract_headings_pattern_only (doc : Doc) : List OutlineEntry :=
  fallbackGo doc.pages 1 []

end PDFOutlineExtractor

/-! ## Title extraction (`_extract_title_carefully`, main.py) -/

/-- A per-line aggregate of the title extractor. -/
structure TextElem where
  text : String
  font_size : ℚ
  is_bold : Bool
  y_pos : ℚ
  x_pos : ℚ
deriving DecidableEq

/-- Sort key `(-font_size, -y_pos, x_pos)` of the title extractor, as a
(total, transitive) "less or equal" relation; `List.insertionSort` with
this relation is stable, like Python's `sort`. -/
def tKey1Le (a b : TextElem) : Prop :=
  a.font_size > b.font_size ∨
  (a.font_size = b.font_size ∧
    (a.y_pos > b.y_pos ∨ (a.y_pos = b.y_pos ∧ a.x_pos ≤ b.x_pos)))

instance : DecidableRel tKey1Le := fun a b => by unfold tKey1Le; infer_instance

/-- Reading-order sort key `(y_pos, x_pos)`. -/
def tKey2Le (a b : TextElem) : Prop :=
  a.y_pos < b.y_pos ∨ (a.y_pos = b.y_pos ∧ a.x_pos ≤ b.x_pos)

instance : DecidableRel tKey2Le := fun a b => by unfold tKey2Le; infer_instance

/-- De-duplicate spans by rounded start position `(round(x0), round(y0))`,
keeping the first span of each position. -/
def uniqueSpansGo : List Span → List (Int × Int) → List Span
  | [], _ => []
  | s :: rest, seen =>
    let key := (pyRound s.bbox.x0, pyRound s.bbox.y0)
    if key ∈ seen then uniqueSpansGo rest seen
    else s :: uniqueSpansGo rest (key :: seen)

/-- The `unique_spans` computation of `_extract_title_carefully`. -/
def uniqueSpans (spans : List Span) : List Span := uniqueSpansGo spans []

namespace PDFOutlineExtractor

/-- Build the text element of one line in `_extract_title_carefully`
(main.py lines 116-158), or `none` if the line is filtered out. -/
def titleLineElem (max_font : ℚ) (l : Line) : Option TextElem :=
  let us := uniqueSpans l.spans
  let line_text : String := ⟨us.flatMap (·.text.data)⟩
  let line_font_size := us.foldl (fun m s => max m s.size) 0
  let line_is_bold := us.any (fun s => s.flags &&& 16 ≠ 0)
  let line_bbox : Option Rect := us.head?.map (·.bbox)
  let t := _clean_text line_text
  if t ≠ "" ∧ t.length > 2 ∧ line_font_size ≥ max_font * 0.6 ∧
     pyIsDigit t = false ∧ mPageNum (pyLower t).data = false then
    some { text := t, font_size := line_font_size, is_bold := line_is_bold,
           y_pos := (line_bbox.map (·.y0)).getD 0,
           x_pos := (line_bbox.map (·.x0)).getD 0 }
  else none

/-- The partial-title loop `for i in range(1, min(len(title_parts) + 1, 6))`
of `_extract_title_carefully`. -/
def tryPartials (parts : List String) : Option String :=
  (List.range' 1 (min (parts.length + 1) 6 - 1)).findSome? (fun i =>
    let cp := _cleanup_extracted_title (pyStrip (joinSpace (parts.take i)))
    if pyIn "RFP:" cp && pyIn "Proposal" cp && decide (cp.length > 30) then some cp
    else none)

/-- `PDFOutlineExtractor._extract_title_carefully`. -/
def _extract_title_carefully (doc : Doc) : String :=
  match doc.pages with
  | [] => ""
  | page :: _ =>
    let allSpans := page.blocks.flatMap (fun b => b.lines.flatMap (·.spans))
    let max_font := allSpans.foldl (fun m s => max m s.size) 0
    let text_elements := page.blocks.flatMap (fun b => b.lines.filterMap (titleLineElem max_font))
    match List.insertionSort tKey1Le text_elements with
    | [] => ""
    | first :: restSorted =>
      let sorted1 := first :: restSorted
      let top_font := first.font_size
      let similar := (sorted1.take 10).filter
        (fun e => decide (e.font_size ≥ top_font * 0.9) && decide (e.font_size ≥ max_font * 0.7))
      let similar := List.insertionSort tKey2Le similar
      let title_parts := similar.map (·.text)
      match title_parts with
      | [] => ""
      | p0 :: _ =>
        let full_title := pyStrip (joinSpace title_parts)
        let cleaned_title := _cleanup_extracted_title full_title
        if pyIn "RFP:" cleaned_title && decide (cleaned_title.length > 50) then cleaned_title
        else
          match tryPartials title_parts with
          | some t => t
          | none =>
            if cleaned_title.length > 15 then cleaned_title
            else _cleanup_extracted_title p0

end PDFOutlineExtractor

/-! ## helper.py: the heading analyzer -/

/-- The `Heading` dataclass of helper.py.  `bbox` is `none` exactly when no
span of the line contributed text (`fitz` always reports a bbox for a
non-empty span). -/
structure Heading where
  text : String
  level : String
  page : Int
  bbox : Option Rect
  font_size : ℚ
  font_name : String
  confidence : ℚ
deriving DecidableEq

/-- The classification result dict `{title, outline}` of helper.py. -/
structure ClassifyResult where
  title : String
  outline : List OutlineEntry
deriving DecidableEq

/-- `max(xs)` for a rational list, `0` when empty (the callers guard the
empty case separately). -/
def listMaxQ : List ℚ → ℚ
  | [] => 0
  | c :: rest => rest.foldl max c

/-- `np.mean`. -/
def npMean (xs : List ℚ) : ℚ := xs.sum / xs.length

/-- `np.std` (population standard deviation); the square root is the
modelled `approxSqrt`. -/
def npStd (xs : List ℚ) : ℚ :=
  approxSqrt ((xs.map (fun x => (x - npMean xs) ^ 2)).sum / xs.length)

/-- `^\d+\.?\s+` (case-sensitive). -/
def mNum1 (l : List Char) : Bool :=
  match eatDigitsPlus l with
  | some r =>
    (match r with | '.' :: t => (eatWsPlus t).isSome | _ => false) || (eatWsPlus r).isSome
  | none => false

/-- `^\d+\.\d+\.?\s+` (case-sensitive). -/
def mNum2 (l : List Char) : Bool :=
  match (do
    let r ← eatDigitsPlus l
    let r ← eatLit ".".data r
    eatDigitsPlus r) with
  | some r =>
    (match r with | '.' :: t => (eatWsPlus t).isSome | _ => false) || (eatWsPlus r).isSome
  | none => false

/-- `^\d+\.\d+\.\d+\.?\s+` (case-sensitive). -/
def mNum3 (l : List Char) : Bool :=
  match (do
    let r ← eatDigitsPlus l
    let r ← eatLit ".".data r
    let r ← eatDigitsPlus r
    let r ← eatLit ".".data r
    eatDigitsPlus r) with
  | some r =>
    (match r with | '.' :: t => (eatWsPlus t).isSome | _ => false) || (eatWsPlus r).isSome
  | none => false

/-- The header/footer text patterns of `_is_header_or_footer`, applied to
the lower-cased, stripped text. -/
def hfPatternMatch (tl : List Char) : Bool :=
  (match eatDigitsPlus tl with | some r => atDollar r | none => false) ||
  mPageNum tl ||
  (match (do
      let r ← eatDigitsPlus tl
      let r ← eatLit "/".data (eatWsStar r)
      eatDigitsPlus (eatWsStar r)) with
   | some r => atDollar r
   | none => false) ||
  isPrefixCL "©".data tl ||
  isPrefixCL "copyright".data tl ||
  isPrefixCL "all rights reserved".data tl ||
  (match tl with
   | c :: rest =>
     pyWordChar c &&
     (match rest.dropWhile pyWordChar with
      | '.' :: t => isPrefixCL "com".data t || isPrefixCL "org".data t || isPrefixCL "net".data t
      | _ => false)
   | [] => false) ||
  isPrefixCL "www.".data tl ||
  isPrefixCL "http://".data tl || isPrefixCL "https://".data tl ||
  litDollar "draft".data tl || litDollar "confidential".data tl || litDollar "proprietary".data tl

namespace PDFHeadingAnalyzer

/-- `PDFHeadingAnalyzer._is_header_or_footer`: position first (top 10% /
bottom 10% of the page height), then text patterns. -/
def _is_header_or_footer (text : String) (bbox : Option Rect)
    (page_height page_width : ℚ) : Bool :=
  match bbox with
  | none => false
  | some r =>
    let header_threshold := page_height * 0.1
    let footer_threshold := page_height * 0.9
    if r.y0 < header_threshold ∨ r.y0 > footer_threshold then true
    else hfPatternMatch (stripChars (pyLower text).data)

/-- The fixed fragment blacklist of `_is_potential_heading`. -/
def fragments : List String :=
  ["quest f", "r pr", "oposal", "rfp:", "request f", "quest for pr",
   "r proposal", "for pr", "pr", "quest", "equest", "r", "f", "quest for",
   "proposal", "present", "developing", "business", "plan", "ontario",
   "digital", "library"]

/-- `PDFHeadingAnalyzer._is_potential_heading`. -/
def _is_potential_heading (text : String) (font_sizes : List ℚ)
    (font_names : List String) (bbox : Option Rect)
    (page_height page_width : ℚ) : Bool :=
  if text = "" ∨ text.length < 3 then false
  else if text.length > 200 then false
  else
    let text_lower := pyStrip (pyLower text)
    if text_lower ∈ fragments then false
    else if text.length < 5 ∧ pyIsUpper text = false then false
    else if text.length < 8 ∧ "aeiou".data.all (fun v => !text_lower.data.contains v) ∧
            pyIsUpper text = false then false
    else if (match text.data with | c :: _ => c.isLower | [] => false) then false
    else if _is_header_or_footer text bbox page_height page_width then false
    else if font_sizes ≠ [] ∧ listMaxQ font_sizes < 8 then false
    else true

/-- Per-line aggregation of `_extract_page_headings`: stripped span texts
joined by spaces, the span font sizes and names, and the union bbox of
the contributing spans. -/
def lineAgg (l : Line) : String × List ℚ × List String × Option Rect :=
  let acc := l.spans.foldl
    (fun (acc : List Char × List ℚ × List String × Option Rect) s =>
      let (t, sizes, names, bbox) := acc
      let st := pyStrip s.text
      if st = "" then acc
      else (t ++ st.data ++ [' '], sizes ++ [s.size], names ++ [s.font],
            match bbox with
            | none => some s.bbox
            | some b => some ⟨min b.x0 s.bbox.x0, min b.y0 s.bbox.y0,
                              max b.x1 s.bbox.x1, max b.y1 s.bbox.y1⟩))
    ([], [], [], none)
  (pyStrip ⟨acc.1⟩, acc.2.1, acc.2.2.1, acc.2.2.2)

/-- `max(set(font_names), key=font_names.count)`: a name with maximal
count.  Python iterates a `set` in unspecified order; the model breaks
ties by first occurrence. -/
def modeFontName : List String → String
  | [] => ""
  | n0 :: rest =>
    (n0 :: rest).foldl
      (fun best n => if (n0 :: rest).count n > (n0 :: rest).count best then n else best) n0

/-- `PDFHeadingAnalyzer._extract_page_headings`. -/
def _extract_page_headings (page : Page) (page_num : Int) : List Heading :=
  page.blocks.flatMap (fun b => b.lines.filterMap (fun l =>
    let agg := lineAgg l
    if _is_potential_heading agg.1 agg.2.1 agg.2.2.1 agg.2.2.2 page.height page.width then
      some { text := agg.1, level := "", page := page_num, bbox := agg.2.2.2,
             font_size := listMaxQ agg.2.1, font_name := modeFontName agg.2.2.1,
             confidence := 0 }
    else none))

/-- `PDFHeadingAnalyzer._should_merge`. -/
def _should_merge (h1 h2 : Heading) : Bool :=
  if h1.page ≠ h2.page then false
  else if |h1.font_size - h2.font_size| > 1 then false
  else if h1.font_name ≠ h2.font_name then false
  else if (match h1.bbox, h2.bbox with
           | some b1, some b2 => decide (|b2.y0 - b1.y1| > 30)
           | _, _ => false) then false
  else if h1.text.length + h2.text.length + 1 > 300 then false
  else true

/-- The `(page, bbox[1] if bbox else 0)` sort key of helper.py, as a total
transitive "less or equal" relation (`List.insertionSort` with it is
stable, like Python's `list.sort`). -/
def hOptY0 (h : Heading) : ℚ :=
  match h.bbox with
  | some r => r.y0
  | none => 0

/-- Lexicographic comparison on `(page, hOptY0)`. -/
def hKeyLe (a b : Heading) : Prop :=
  a.page < b.page ∨ (a.page = b.page ∧ hOptY0 a ≤ hOptY0 b)

instance : DecidableRel hKeyLe := fun a b => by unfold hKeyLe; infer_instance

instance : IsTotal Heading hKeyLe :=
  ⟨fun a b => by
    unfold hKeyLe
    rcases lt_trichotomy a.page b.page with h | h | h
    · exact Or.inl (Or.inl h)
    · rcases le_total (hOptY0 a) (hOptY0 b) with h2 | h2
      · exact Or.inl (Or.inr ⟨h, h2⟩)
      · exact Or.inr (Or.inr ⟨h.symm, h2⟩)
    · exact Or.inr (Or.inl h)⟩

instance : IsTrans Heading hKeyLe :=
  ⟨fun a b c hab hbc => by
    unfold hKeyLe at *
    rcases hab with h1 | ⟨h1, h1'⟩ <;> rcases hbc with h2 | ⟨h2, h2'⟩
    · exact Or.inl (h1.trans h2)
    · exact Or.inl (h2 ▸ h1)
    · exact Or.inl (h1 ▸ h2)
    · exact Or.inr ⟨h1.trans h2, h1'.trans h2'⟩⟩

/-- Union of two bboxes as in the merge loop; the bbox is only updated
when both are present. -/
def unionOpt (m n : Option Rect) : Option Rect :=
  match m, n with
  | some a, some b => some ⟨min a.x0 b.x0, min a.y0 b.y0, max a.x1 b.x1, max a.y1 b.y1⟩
  | _, _ => m

/-- Close one merge run: concatenate the absorbed texts (single spaces),
union the bboxes; page, font size and font name come from the run head. -/
def mkMerged (cur : Heading) (absorbed : List Heading) : Heading :=
  let merged_text := absorbed.foldl (fun t h => t ++ " " ++ h.text) cur.text
  let merged_bbox := absorbed.foldl (fun b h => unionOpt b h.bbox) cur.bbox
  { text := pyStrip merged_text, level := "", page := cur.page, bbox := merged_bbox,
    font_size := cur.font_size, font_name := cur.font_name, confidence := 0 }

/-- The greedy merge scan of `_merge_adjacent_headings`: absorb following
candidates while `_should_merge(current, next)` holds for the *run head*
`current`.  Fuel is the list length (each step consumes at least one
element). -/
def mergeLoopF : Nat → List Heading → List Heading
  | _, [] => []
  | 0, l => l
  | n + 1, cur :: rest =>
    let absorbed := rest.takeWhile (_should_merge cur)
    let rem := rest.dropWhile (_should_merge cur)
    mkMerged cur absorbed :: mergeLoopF n rem

/-- `PDFHeadingAnalyzer._merge_adjacent_headings`. -/
def _merge_adjacent_headings (headings : List Heading) : List Heading :=
  let sorted := List.insertionSort hKeyLe headings
  mergeLoopF sorted.length sorted

/-- `PDFHeadingAnalyzer._analyze_text_patterns`: additive pattern score.
The three numbering clauses form an `if/elif` chain; the rest are
independent additive clauses. -/
def _analyze_text_patterns (text : String) : ℚ :=
  let l := text.data
  let s1 : ℚ := if mNum1 l then 1 else if mNum2 l then 0.8 else if mNum3 l then 0.6 else 0
  let s2 : ℚ := if pyIsTitle text then 0.6 else 0
  let s3 : ℚ := if pyIsUpper text ∧ pyWordCount text ≤ 8 then 0.7 else 0
  let word_count := pyWordCount text
  let s4 : ℚ := if word_count > 20 then -0.8 else if word_count > 15 then -0.5 else 0
  let s5 : ℚ :=
    if ["chapter", "section", "part", "introduction", "conclusion"].any
        (fun w => pyIn w (pyLower text)) then 0.8 else 0
  s1 + s2 + s3 + s4 + s5

/-- `PDFHeadingAnalyzer._analyze_typography`. -/
def _analyze_typography (font_name : String) : ℚ :=
  if font_name = "" then 0
  else
    let fl := pyLower font_name
    if ["bold", "black", "heavy"].any (fun w => pyIn w fl) then 1
    else if ["medium", "semi"].any (fun w => pyIn w fl) then 0.5
    else 0

/-- `PDFHeadingAnalyzer._analyze_position`. -/
def _analyze_position (bbox : Option Rect) (page : Int) : ℚ :=
  match bbox with
  | none => 0
  | some r =>
    let s : ℚ := if 100 < r.y0 ∧ r.y0 < 250 then 0.5 else 0
    if page = 1 then s + 0.3 else s

/-- `PDFHeadingAnalyzer._calculate_heading_level`. -/
def _calculate_heading_level (heading : Heading) (mean_size std_size : ℚ) : String × ℚ :=
  let font_score := (heading.font_size - mean_size) / (std_size + 1 / 1000000)
  let pattern_score := _analyze_text_patterns heading.text
  let format_score := _analyze_typography heading.font_name
  let position_score := _analyze_position heading.bbox heading.page
  let total_score := 0.4 * font_score + 0.3 * pattern_score +
                     0.2 * format_score + 0.1 * position_score
  if total_score > 1.5 ∨ font_score > 2 then ("H1", min 0.95 (0.7 + total_score * 0.1))
  else if total_score > 0.8 ∨ font_score > 1 then ("H2", min 0.9 (0.6 + total_score * 0.1))
  else if total_score > 0.3 ∨ font_score > 0.5 then ("H3", min 0.85 (0.5 + total_score * 0.1))
  else ("", 0)

/-- `max(page1_headings, key=lambda x: x.font_size)`: Python's `max`
returns the first element attaining the maximum. -/
def firstMaxBySize : Heading → List Heading → Heading
  | best, [] => best
  | best, h :: rest => firstMaxBySize (if h.font_size > best.font_size then h else best) rest

/-- The final `outline.sort(key=lambda x: x["page"])` relation. -/
def oPageLe (a b : OutlineEntry) : Prop := a.page ≤ b.page

instance : DecidableRel oPageLe := fun a b => by unfold oPageLe; infer_instance

instance : IsTotal OutlineEntry oPageLe := ⟨fun a b => le_total a.page b.page⟩

instance : IsTrans OutlineEntry oPageLe := ⟨fun _ _ _ hab hbc => le_trans hab hbc⟩

/-- `PDFHeadingAnalyzer._classify_headings`. -/
def _classify_headings (headings : List Heading) : ClassifyResult :=
  match headings with
  | [] => { title := "", outline := [] }
  | _ :: _ =>
    let font_sizes := headings.map (·.font_size)
    let mean_size := npMean font_sizes
    let std_size := if font_sizes.length > 1 then npStd font_sizes else 1
    let sorted := List.insertionSort hKeyLe headings
    let page1_headings := sorted.filter (fun h => decide (h.page = 1))
    let title : String := match page1_headings with
      | [] => ""
      | h0 :: rest => (firstMaxBySize h0 rest).text
    let outline := sorted.filterMap (fun h =>
      if h.text = title then none
      else
        let lc := _calculate_heading_level h mean_size std_size
        if lc.1 ≠ "" ∧ lc.2 > 0.3 then
          some { level := lc.1, text := h.text, page := h.page }
        else none)
    { title := title, outline := List.insertionSort oPageLe outline }

/-- The page loop shared by `analyze_pdf` and `analyze_pdf_from_doc`
(pages are numbered from 1). -/
def extractAllGo : List Page → Int → List Heading
  | [], _ => []
  | p :: ps, n => _extract_page_headings p n ++ extractAllGo ps (n + 1)

/-- `PDFHeadingAnalyzer.analyze_pdf_from_doc`: extract, merge, classify. -/
def analyze_pdf_from_doc (doc : Doc) : ClassifyResult :=
  _classify_headings (_merge_adjacent_headings (extractAllGo doc.pages 1))

end PDFHeadingAnalyzer

/-- `helper.analyze_pdf_headings`: the standalone entry point of helper.py.
On failure it returns the `{title: "", outline: [], error: ...}` dict
(modelled before JSON serialization); the modelled failure source is
opening/parsing the document. -/
def analyze_pdf_headings (r : Except String Doc) : ExtractResult :=
  match r with
  | .error e => { title := "", outline := [], error := some ("Analysis failed: " ++ e) }
  | .ok doc =>
    let res := PDFHeadingAnalyzer.analyze_pdf_from_doc doc
    { title := res.title, outline := res.outline, error := none }

namespace PDFOutlineExtractor

/-- `PDFOutlineExtractor._extract_from_text`, primary path: the helper
analyzer's outline items copied field by field.  (If the analyzer raised,
the source falls back to `_extract_headings_pattern_only`; the fallback
is modelled as that separate function, since the Lean analyzer is total.) -/
def _extract_from_text (doc : Doc) : List OutlineEntry :=
  (PDFHeadingAnalyzer.analyze_pdf_from_doc doc).outline.map
    (fun item => { level := item.level, text := item.text, page := item.page })

/-- `PDFOutlineExtractor.extract_outline`: the caller-facing assembler.
`fitz.open` is the modelled source of the `except` branch, which returns
`{"title": "Error", "outline": []}` (no `error` key).  `if toc and
len(toc) > 2` is equivalent to `len(toc) > 2`. -/
def extract_outline (r : Except String Doc) : ExtractResult :=
  match r with
  | .error _ => { title := "Error", outline := [], error := none }
  | .ok doc =>
    if _is_form_document doc then
      { title := _extract_title_carefully doc, outline := [], error := none }
    else if decide (doc.toc.length > 2) then
      { title := _extract_title_carefully doc, outline := _process_toc doc.toc, error := none }
    else
      { title := _extract_title_carefully doc, outline := _extract_from_text doc, error := none }

end PDFOutlineExtractor

/-! ## Specification-side definitions

These definitions follow the wording of the specification (not the
source); the theorems below compare the source-translated functions
against them. -/

/-- Spec wording of the TOC entry mapping (amended: entries whose stripped
title is shorter than 3 characters are dropped): native level 1 → H1,
2 → H2, everything else → H3; text is the stripped title; the page is
clamped to at least 1. -/
def tocEntrySpec (e : TocEntry) : Option OutlineEntry :=
  if (pyStrip e.title).length < 3 then none
  else some { level := if e.level = 1 then "H1" else if e.level = 2 then "H2" else "H3",
              text := pyStrip e.title, page := max 1 e.page }

/-- Spec wording: `font_score = (size − mean) / (std + 1e-6)`. -/
def spec_font_score (h : Heading) (m s : ℚ) : ℚ :=
  (h.font_size - m) / (s + 1 / 1000000)

/-- Spec wording:
`total_score = 0.4·font_score + 0.3·pattern_score + 0.2·format_score + 0.1·position_score`. -/
def spec_total_score (font_score pattern_score format_score position_score : ℚ) : ℚ :=
  0.4 * font_score + 0.3 * pattern_score + 0.2 * format_score + 0.1 * position_score

/-- Spec wording of the level table (first matching row wins):
H1 when `total_score > 1.5` or `font_score > 2.0`, confidence
`min(0.95, 0.7 + 0.1·total_score)`; H2 when `total_score > 0.8` or
`font_score > 1.0`, confidence `min(0.9, 0.6 + 0.1·total_score)`; H3 when
`total_score > 0.3` or `font_score > 0.5`, confidence
`min(0.85, 0.5 + 0.1·total_score)`; otherwise no level, confidence 0. -/
def spec_level_table (font_score total_score : ℚ) : String × ℚ :=
  if total_score > 1.5 ∨ font_score > 2 then ("H1", min 0.95 (0.7 + 0.1 * total_score))
  else if total_score > 0.8 ∨ font_score > 1 then ("H2", min 0.9 (0.6 + 0.1 * total_score))
  else if total_score > 0.3 ∨ font_score > 0.5 then ("H3", min 0.85 (0.5 + 0.1 * total_score))
  else ("", 0)

/-- Rank of a heading level in the ordering H1 > H2 > H3 > none. -/
def levelRank (s : String) : Nat :=
  if s = "H1" then 3 else if s = "H2" then 2 else if s = "H3" then 1 else 0

/-- Spec wording: the outline is non-decreasing in its `page` field. -/
def pagesNonDecreasing : List OutlineEntry → Bool
  | [] => true
  | [_] => true
  | a :: b :: t => decide (a.page ≤ b.page) && pagesNonDecreasing (b :: t)

/-! ## Concrete input documents and headings used by the theorems -/

/-- A page holding the single line "Annual Report 2024" at font size 20. -/
def demoPage : Page :=
  ⟨[⟨[⟨[⟨"Annual Report 2024", 20, "Helv", 0, ⟨50, 40, 300, 60⟩⟩]⟩]⟩], 612, 792⟩

/-- A document whose embedded TOC (3 entries) repeats the page-1 title
"Annual Report 2024" as its first entry. -/
def c1doc : Doc :=
  { pages := [demoPage],
    toc := [⟨1, "Annual Report 2024", 1⟩, ⟨1, "Background", 2⟩, ⟨1, "Conclusion", 3⟩] }

/-- A document whose embedded TOC (3 entries) lists pages out of order. -/
def c2doc : Doc :=
  { pages := [demoPage],
    toc := [⟨1, "Appendix One", 5⟩, ⟨1, "Appendix Two", 2⟩, ⟨1, "Appendix Three", 9⟩] }

/-- A document whose embedded TOC (3 entries) contains one entry with a
2-character title, one title needing stripping, and one page number 0. -/
def c5doc : Doc :=
  { pages := [demoPage],
    toc := [⟨1, "Introduction", 1⟩, ⟨2, "AB", 2⟩, ⟨1, " Conclusion ", 0⟩] }

/-- Three same-font candidates on one page.  "CHARLIE" lies within 30pt of
"ALPHA"'s bottom edge and stretches far down; "BRAVO"'s top is more than
30pt below "ALPHA"'s bottom edge but within 30pt of the merged
ALPHA-CHARLIE union bbox's bottom edge. -/
def c6input : List Heading :=
  [{ text := "ALPHA", level := "", page := 1, bbox := some ⟨0, 0, 10, 10⟩,
     font_size := 10, font_name := "F", confidence := 0 },
   { text := "CHARLIE", level := "", page := 1, bbox := some ⟨0, 20, 10, 100⟩,
     font_size := 10, font_name := "F", confidence := 0 },
   { text := "BRAVO", level := "", page := 1, bbox := some ⟨0, 80, 10, 120⟩,
     font_size := 10, font_name := "F", confidence := 0 }]

/-- Two normal-form headings on different pages: no merge occurs. -/
def c6wit : List Heading :=
  [{ text := "Overview", level := "", page := 1, bbox := some ⟨0, 100, 50, 110⟩,
     font_size := 12, font_name := "F", confidence := 0 },
   { text := "Details", level := "", page := 2, bbox := some ⟨0, 100, 50, 110⟩,
     font_size := 12, font_name := "F", confidence := 0 }]

/-- A one-page document whose only line, "Chapter 1", has its bbox top at
y = 5, inside the top 10% band of the page height 100. -/
def c7doc : Doc :=
  ⟨[⟨[⟨[⟨[⟨"Chapter 1", 12, "Helv", 0, ⟨10, 5, 100, 15⟩⟩]⟩]⟩], 612, 100⟩], []⟩

/-- A page with one mid-page line "Introduction" (bbox top 40 on height 100). -/
def c7page : Page :=
  ⟨[⟨[⟨[⟨"Introduction", 12, "Helv", 0, ⟨50, 40, 200, 52⟩⟩]⟩]⟩], 612, 100⟩

/-- The heading that `_extract_page_headings` extracts from `c7page`. -/
def c7heading : Heading :=
  { text := "Introduction", level := "", page := 1, bbox := some ⟨50, 40, 200, 52⟩,
    font_size := 12, font_name := "Helv", confidence := 0 }

/-- A badly fragmented page-1 RFP title text containing the full marker
and companion fragment set. -/
def c4full : String :=
  "RFP: Request for Pr oposal Present Developing Business Ontario Digital Library"

/-- A fragmented RFP title with the RFP/request markers but no proposal
marker and no companion fragments. -/
def c4partial : String := "RFP: Request for X"

/-- A large bold numbered heading used to exercise the classifier. -/
def c10heading : Heading :=
  { text := "1. Introduction", level := "", page := 1, bbox := some ⟨50, 150, 200, 170⟩,
    font_size := 20, font_name := "Helv-Bold", confidence := 0 }

/-- A heading of font size 30 (other features as `c9small`). -/
def c9big : Heading :=
  { text := "Section A", level := "", page := 2, bbox := some ⟨50, 300, 200, 320⟩,
    font_size := 30, font_name := "Helv", confidence := 0 }

/-- A heading of font size 10 (other features as `c9big`). -/
def c9small : Heading :=
  { text := "Section A", level := "", page := 2, bbox := some ⟨50, 300, 200, 320⟩,
    font_size := 10, font_name := "Helv", confidence := 0 }

/-! ## Helper lemmas -/

/-- `_process_toc` is the `filterMap` of the per-entry TOC mapping. -/
theorem process_toc_eq_filterMap (l : List TocEntry) :
    PDFOutlineExtractor._process_toc l = l.filterMap tocEntrySpec := by
  induction l with
  | nil => rfl
  | cons e rest ih =>
    simp only [PDFOutlineExtractor._process_toc, List.filterMap_cons, tocEntrySpec]
    by_cases hshort : (pyStrip e.title).length < 3
    · have : e.title = "" ∨ (pyStrip e.title).length < 3 := Or.inr hshort
      rw [if_pos this, if_pos hshort, ih]
    · have hne : ¬(e.title = "" ∨ (pyStrip e.title).length < 3) := by
        rintro (h | h)
        · exact hshort (by rw [h]; decide)
        · exact hshort h
      rw [if_neg hne, if_neg hshort, ih]
      congr 1
      simp only [PDFOutlineExtractor.mapTocLevel]
      by_cases h1 : e.level = 1
      · simp [h1]
      · by_cases h2 : e.level = 2
        · simp [h1, h2]
        · by_cases h3 : e.level = 3 <;> simp [h1, h2, h3]

/-! ## Claim C3 -/

/-- Claim C3, counterexample: on an unrecoverable open failure the
assembler's caller-facing `extract_outline` does *not* return the claimed
`{title: "", outline: [], error: msg}` shape: the title is `"Error"` and
the result carries no error field at all. -/
theorem C3_counterexample :
    (PDFOutlineExtractor.extract_outline (.error "boom")).title ≠ "" ∧
    (PDFOutlineExtractor.extract_outline (.error "boom")).error = none := by
  constructor
  · decide
  · rfl

/-- Claim C3 (amended): on unrecoverable failure to open/parse the source,
the assembler's `extract_outline` returns `{title: "Error", outline: []}`
with no error field (and, being a total function of the model, never
raises); the `{title: "", outline: [], error: msg}` shape described by the
claim is produced by the helper's standalone entry point
`analyze_pdf_headings` instead. -/
theorem C3_error_shapes (e : String) :
    PDFOutlineExtractor.extract_outline (.error e) =
      { title := "Error", outline := [], error := none } ∧
    analyze_pdf_headings (.error e) =
      { title := "", outline := [], error := some ("Analysis failed: " ++ e) } :=
  ⟨rfl, rfl⟩

/-! ## Claim C5 -/

/-- Claim C5, counterexample: `c5doc`'s TOC has 3 (> 2) entries, but the
entry `(2, "AB", 2)` is *not* mapped to an outline entry — `_process_toc`
skips any entry whose stripped title is shorter than 3 characters — so
the outline has only 2 entries (which also exhibit title stripping and
the page clamp `max(1, page)`). -/
theorem C5_counterexample :
    (PDFOutlineExtractor.extract_outline (.ok c5doc)).outline.length ≠ c5doc.toc.length ∧
    (PDFOutlineExtractor.extract_outline (.ok c5doc)).outline =
      [⟨"H1", "Introduction", 1⟩, ⟨"H1", "Conclusion", 1⟩] := by
  constructor
  · decide
  · rfl

/-- Claim C5 (amended): whenever the embedded TOC has more than 2 entries
(and the form short-circuit does not fire), the returned outline is
obtained from the TOC alone — candidate extraction and classification are
skipped — by mapping, in order, every entry *whose stripped title has at
least 3 characters* to `{level: 1→H1 / 2→H2 / other→H3, text: stripped
title, page: max(1, page)}`; entries with shorter titles are dropped. -/
theorem C5_toc_mapping (doc : Doc)
    (hform : PDFOutlineExtractor._is_form_document doc = false)
    (htoc : doc.toc.length > 2) :
    (PDFOutlineExtractor.extract_outline (.ok doc)).outline =
      doc.toc.filterMap tocEntrySpec := by
  rw [← process_toc_eq_filterMap]
  simp only [PDFOutlineExtractor.extract_outline, hform, Bool.false_eq_true, if_false,
    decide_eq_true_eq, htoc, if_true]

/-- Witness for C5: the amended mapping evaluated on the concrete `c5doc`. -/
theorem C5_toc_mapping_witness :
    (PDFOutlineExtractor.extract_outline (.ok c5doc)).outline =
      c5doc.toc.filterMap tocEntrySpec :=
  C5_toc_mapping c5doc (by decide) (by decide)

/-! ## Claim C7 -/

/-- Claim C7, counterexample: the degraded pattern-only fallback performs
no position check.  The only line of `c7doc` has its bbox top at `y = 5`,
inside the top 10% band of the page height 100, yet it is emitted into
the fallback outline because its text matches a heading pattern. -/
theorem C7_counterexample :
    (5 : ℚ) < 100 * 0.1 ∧
    PDFOutlineExtractor._extract_headings_pattern_only c7doc =
      [⟨"H1", "Chapter 1", 1⟩] := by
  constructor
  · norm_num
  · rfl

/-- The candidate filter rejects any line whose bbox top lies in the top
or bottom 10% band, regardless of its text: position is checked before
the header/footer text patterns. -/
theorem potential_heading_band (text : String) (sizes : List ℚ) (names : List String)
    (bbox : Option Rect) (H W : ℚ) (r : Rect)
    (hpot : PDFHeadingAnalyzer._is_potential_heading text sizes names bbox H W = true)
    (hbb : bbox = some r) :
    H * 0.1 ≤ r.y0 ∧ r.y0 ≤ H * 0.9 := by
  subst hbb
  simp only [PDFHeadingAnalyzer._is_potential_heading] at hpot
  split_ifs at hpot with h1 h2 h3 h4 h5 h6 h7 h8
  all_goals
    have hf : PDFHeadingAnalyzer._is_header_or_footer text (some r) H W = false :=
      Bool.eq_false_iff.mpr h7
  all_goals simp only [PDFHeadingAnalyzer._is_header_or_footer] at hf
  all_goals split_ifs at hf with hband
  all_goals push_neg at hband
  all_goals exact ⟨hband.1, hband.2⟩

/-- Claim C7 (amended): on the text-analysis path, every extracted
candidate's bbox top lies outside the top and bottom 10% bands of the
page height — so no candidate from those bands can reach merging,
classification or the outline.  The degraded pattern-only fallback,
however, performs no position check and can emit such lines (see the
counterexample). -/
theorem C7_analyzer_band_exclusion (page : Page) (n : Int) (h : Heading)
    (hmem : h ∈ PDFHeadingAnalyzer._extract_page_headings page n) (r : Rect)
    (hbb : h.bbox = some r) :
    page.height * 0.1 ≤ r.y0 ∧ r.y0 ≤ page.height * 0.9 := by
  simp only [PDFHeadingAnalyzer._extract_page_headings, List.mem_flatMap,
    List.mem_filterMap] at hmem
  obtain ⟨b, -, l, -, hsome⟩ := hmem
  split_ifs at hsome with hpot
  cases Option.some.inj hsome
  exact potential_heading_band _ _ _ _ _ _ r hpot hbb

/-- Witness for C7: the mid-page candidate of `c7page` is extracted and
its top (y = 40) indeed lies between 10% and 90% of the page height 100. -/
theorem C7_analyzer_band_exclusion_witness :
    c7page.height * 0.1 ≤ (40 : ℚ) ∧ (40 : ℚ) ≤ c7page.height * 0.9 :=
  C7_analyzer_band_exclusion c7page 1 c7heading (by decide) ⟨50, 40, 200, 52⟩ rfl

/-! ## Claims C8, C9, C10 -/

/-- Bridge: the source classifier equals the spec-worded level table
applied to the spec-worded scores. -/
theorem calcLevel_eq_table (h : Heading) (m s : ℚ) :
    PDFHeadingAnalyzer._calculate_heading_level h m s =
      spec_level_table (spec_font_score h m s)
        (spec_total_score (spec_font_score h m s)
          (PDFHeadingAnalyzer._analyze_text_patterns h.text)
          (PDFHeadingAnalyzer._analyze_typography h.font_name)
          (PDFHeadingAnalyzer._analyze_position h.bbox h.page)) := by
  unfold PDFHeadingAnalyzer._calculate_heading_level spec_level_table spec_total_score
    spec_font_score
  simp only [mul_comm (0.1 : ℚ)]

/-- Claim C8: for every merged candidate and document statistics the
classifier computes `font_score = (size − mean)/(std + 1e-6)`,
`total_score = 0.4·font_score + 0.3·pattern_score + 0.2·format_score +
0.1·position_score`, and assigns level and confidence by the first
matching row of the spec's table. -/
theorem C8_classifier_formula (h : Heading) (m s : ℚ) :
    PDFHeadingAnalyzer._calculate_heading_level h m s =
      spec_level_table (spec_font_score h m s)
        (spec_total_score (spec_font_score h m s)
          (PDFHeadingAnalyzer._analyze_text_patterns h.text)
          (PDFHeadingAnalyzer._analyze_typography h.font_name)
          (PDFHeadingAnalyzer._analyze_position h.bbox h.page)) :=
  calcLevel_eq_table h m s

/-- Rank monotonicity of the level table in `(font_score, total_score)`. -/
theorem table_rank_mono (f1 f2 t1 t2 : ℚ) (hf : f2 < f1) (ht : t2 < t1) :
    levelRank (spec_level_table f2 t2).1 ≤ levelRank (spec_level_table f1 t1).1 := by
  unfold spec_level_table
  split_ifs <;> try simp [levelRank]
  all_goals (exfalso; push_neg at *; casesm* _ ∨ _ <;> linarith)

/-- Claim C9: for two classified headings with identical pattern, format
and position scores and a font-score difference greater than 1.0, the
heading with the higher font score never receives a strictly lower level
in the ordering H1 > H2 > H3 > none. -/
theorem C9_font_score_monotonicity (h1 h2 : Heading) (m s : ℚ)
    (hpat : PDFHeadingAnalyzer._analyze_text_patterns h1.text =
            PDFHeadingAnalyzer._analyze_text_patterns h2.text)
    (hfmt : PDFHeadingAnalyzer._analyze_typography h1.font_name =
            PDFHeadingAnalyzer._analyze_typography h2.font_name)
    (hpos : PDFHeadingAnalyzer._analyze_position h1.bbox h1.page =
            PDFHeadingAnalyzer._analyze_position h2.bbox h2.page)
    (hdiff : spec_font_score h1 m s - spec_font_score h2 m s > 1) :
    levelRank (PDFHeadingAnalyzer._calculate_heading_level h1 m s).1 ≥
    levelRank (PDFHeadingAnalyzer._calculate_heading_level h2 m s).1 := by
  rw [ge_iff_le, calcLevel_eq_table, calcLevel_eq_table, hpat, hfmt, hpos]
  apply table_rank_mono
  · linarith
  · unfold spec_total_score
    linarith

/-- Witness for C9: two headings differing only in font size (30 vs 10),
with mean 10 and std 2; the larger one does not rank below the smaller. -/
theorem C9_font_score_monotonicity_witness :
    levelRank (PDFHeadingAnalyzer._calculate_heading_level c9big 10 2).1 ≥
    levelRank (PDFHeadingAnalyzer._calculate_heading_level c9small 10 2).1 :=
  C9_font_score_monotonicity c9big c9small 10 2 rfl rfl rfl (by decide)

/-- The pattern score is bounded below by −0.8: the only negative clause
is the word-count penalty. -/
theorem analyze_text_patterns_ge (text : String) :
    (-0.8 : ℚ) ≤ PDFHeadingAnalyzer._analyze_text_patterns text := by
  simp only [PDFHeadingAnalyzer._analyze_text_patterns]
  split_ifs <;> norm_num

/-- The typography score is non-negative. -/
theorem typography_nonneg (font_name : String) :
    0 ≤ PDFHeadingAnalyzer._analyze_typography font_name := by
  simp only [PDFHeadingAnalyzer._analyze_typography]
  split_ifs <;> norm_num

/-- The position score is non-negative. -/
theorem position_nonneg (bbox : Option Rect) (page : Int) :
    0 ≤ PDFHeadingAnalyzer._analyze_position bbox page := by
  cases bbox <;> simp only [PDFHeadingAnalyzer._analyze_position] <;> (try split_ifs) <;> norm_num

/-- Claim C10: when the classifier assigns a non-empty level the returned
confidence exceeds 0.3 (the component score bounds make that forced), so
the emission condition "level assigned and confidence > 0.3" is
equivalent to "level assigned". -/
theorem C10_level_implies_confidence (h : Heading) (m s : ℚ) :
    ((PDFHeadingAnalyzer._calculate_heading_level h m s).1 ≠ "" →
      0.3 < (PDFHeadingAnalyzer._calculate_heading_level h m s).2) ∧
    (((PDFHeadingAnalyzer._calculate_heading_level h m s).1 ≠ "" ∧
       0.3 < (PDFHeadingAnalyzer._calculate_heading_level h m s).2) ↔
      (PDFHeadingAnalyzer._calculate_heading_level h m s).1 ≠ "") := by
  have hpb := analyze_text_patterns_ge h.text
  have hfb := typography_nonneg h.font_name
  have hposb := position_nonneg h.bbox h.page
  have hmain : (PDFHeadingAnalyzer._calculate_heading_level h m s).1 ≠ "" →
      0.3 < (PDFHeadingAnalyzer._calculate_heading_level h m s).2 := by
    rw [calcLevel_eq_table]
    unfold spec_level_table spec_total_score
    split_ifs with hA hB hC
    · intro _
      refine lt_min (by norm_num) ?_
      rcases hA with hA | hA <;> linarith
    · intro _
      refine lt_min (by norm_num) ?_
      rcases hB with hB | hB <;> linarith
    · intro _
      refine lt_min (by norm_num) ?_
      rcases hC with hC | hC <;> linarith
    · intro hne
      exact absurd rfl hne
  exact ⟨hmain, fun hand => hand.1, fun hlvl => ⟨hlvl, hmain hlvl⟩⟩

/-- Witness for C10: the classifier assigns `c10heading` (font 20, mean
10, std 2) a level, and its confidence indeed exceeds 0.3. -/
theorem C10_level_implies_confidence_witness :
    0.3 < (PDFHeadingAnalyzer._calculate_heading_level c10heading 10 2).2 :=
  (C10_level_implies_confidence c10heading 10 2).1 (by decide)

/-! ## Claim C1 -/

/-- Entries produced by the classification filter of `_classify_headings`
never carry the excluded title text. -/
theorem mem_classify_filterMap (T : String) (f : Heading → String × ℚ)
    (l : List Heading) (e : OutlineEntry)
    (he : e ∈ l.filterMap (fun h =>
      if h.text = T then none
      else if (f h).1 ≠ "" ∧ (f h).2 > 0.3 then
        some { level := (f h).1, text := h.text, page := h.page }
      else none)) :
    e.text ≠ T := by
  rw [List.mem_filterMap] at he
  obtain ⟨h, -, hfh⟩ := he
  by_cases heq : h.text = T
  · simp [heq] at hfh
  · rw [if_neg heq] at hfh
    split_ifs at hfh
    cases Option.some.inj hfh
    exact heq

/-- Claim C1 (amended): on the text-analysis path the helper's returned
outline never contains the helper's own title (the largest-font page-1
candidate): `_classify_headings` skips every heading whose text equals
that title.  The claim as stated — about the *assembler's* returned
title, which comes from the separate extractor `_extract_title_carefully`
— fails on the embedded-TOC path (see the counterexample). -/
theorem C1_helper_title_exclusion (doc : Doc) :
    ((PDFHeadingAnalyzer.analyze_pdf_from_doc doc).outline.all
      (fun e => !(e.text == (PDFHeadingAnalyzer.analyze_pdf_from_doc doc).title))) = true := by
  rw [List.all_eq_true]
  intro e he
  rw [Bool.not_eq_true', beq_eq_false_iff_ne]
  revert he
  show e ∈ (PDFHeadingAnalyzer.analyze_pdf_from_doc doc).outline → _
  unfold PDFHeadingAnalyzer.analyze_pdf_from_doc
  generalize PDFHeadingAnalyzer._merge_adjacent_headings
    (PDFHeadingAnalyzer.extractAllGo doc.pages 1) = hs
  intro he
  cases hs with
  | nil => simp [PDFHeadingAnalyzer._classify_headings] at he
  | cons h0 t =>
    simp only [PDFHeadingAnalyzer._classify_headings] at he ⊢
    rw [List.mem_insertionSort] at he
    exact mem_classify_filterMap _ _ _ _ he


/-- Claim C1, counterexample: on the embedded-TOC path nothing excludes
the extracted title from the outline.  For `c1doc` the returned title is
"Annual Report 2024" and the returned outline contains an entry with
exactly that text. -/
theorem C1_counterexample :
    ((PDFOutlineExtractor.extract_outline (.ok c1doc)).outline.any
      (fun e => e.text == (PDFOutlineExtractor.extract_outline (.ok c1doc)).title)) = true := by
  decide

/-! ## Claim C2 -/

/-- `pagesNonDecreasing` is the boolean form of `Chain' (page ≤)`. -/
theorem pagesNonDecreasing_iff_chain : ∀ l : List OutlineEntry,
    pagesNonDecreasing l = true ↔ List.Chain' PDFHeadingAnalyzer.oPageLe l
  | [] => by simp [pagesNonDecreasing]
  | [a] => by simp [pagesNonDecreasing]
  | a :: b :: t => by
    rw [pagesNonDecreasing, List.chain'_cons, Bool.and_eq_true, decide_eq_true_eq,
      pagesNonDecreasing_iff_chain (b :: t)]
    exact Iff.rfl

/-- A sorted outline is non-decreasing in `page`. -/
theorem pagesNonDecreasing_of_sorted : ∀ l : List OutlineEntry,
    List.Sorted PDFHeadingAnalyzer.oPageLe l → pagesNonDecreasing l = true
  | [], _ => rfl
  | [_], _ => rfl
  | a :: b :: t, h => by
    rw [pagesNonDecreasing, Bool.and_eq_true, decide_eq_true_eq]
    exact ⟨(List.sorted_cons.mp h).1 b (List.mem_cons_self b t),
      pagesNonDecreasing_of_sorted (b :: t) (List.sorted_cons.mp h).2⟩

/-- The classifier's outline is sorted by page (it ends with
`outline.sort(key=page)`). -/
theorem classify_outline_sorted (hs : List Heading) :
    pagesNonDecreasing (PDFHeadingAnalyzer._classify_headings hs).outline = true := by
  cases hs with
  | nil => rfl
  | cons h0 t =>
    simp only [PDFHeadingAnalyzer._classify_headings]
    exact pagesNonDecreasing_of_sorted _
      (List.sorted_insertionSort PDFHeadingAnalyzer.oPageLe _)

/-- Every entry the fallback produces on one page carries that page number. -/
theorem fallbackPageGo_pages (n : Int) : ∀ (lines : List Line) (seen : List String),
    ∀ e ∈ (PDFOutlineExtractor.fallbackPageGo n lines seen).1, e.page = n := by
  intro lines
  induction lines with
  | nil =>
    intro seen e he
    simp [PDFOutlineExtractor.fallbackPageGo] at he
  | cons l rest ih =>
    intro seen e he
    simp only [PDFOutlineExtractor.fallbackPageGo] at he
    split_ifs at he with hskip
    · exact ih seen e he
    · rcases hpl : PDFOutlineExtractor.patternLevel
          (pyStrip ⟨l.spans.flatMap (·.text.data)⟩) with _ | lv <;>
        rw [hpl] at he
      · exact ih seen e he
      · rcases List.mem_cons.mp he with rfl | he'
        · rfl
        · exact ih _ e he'

/-- Every entry the fallback produces from page `n` on has page ≥ `n`. -/
theorem fallbackGo_pages_ge : ∀ (ps : List Page) (n : Int) (seen : List String),
    ∀ e ∈ PDFOutlineExtractor.fallbackGo ps n seen, n ≤ e.page
  | [], n, seen => by
    intro e he
    simp [PDFOutlineExtractor.fallbackGo] at he
  | p :: ps, n, seen => by
    intro e he
    simp only [PDFOutlineExtractor.fallbackGo] at he
    rcases List.mem_append.mp he with h | h
    · rw [fallbackPageGo_pages n _ _ e h]
    · have := fallbackGo_pages_ge ps (n + 1) _ e h
      omega

/-- A constant-page list is a `(page ≤)`-chain. -/
theorem chain_of_const_page (n : Int) : ∀ es : List OutlineEntry,
    (∀ e ∈ es, e.page = n) → List.Chain' PDFHeadingAnalyzer.oPageLe es
  | [] , _ => List.chain'_nil
  | [_], _ => List.chain'_singleton _
  | a :: b :: t, h => by
    rw [List.chain'_cons]
    refine ⟨?_, chain_of_const_page n (b :: t) (fun e he => h e (List.mem_cons_of_mem a he))⟩
    show a.page ≤ b.page
    rw [h a (List.mem_cons_self a _), h b (List.mem_cons_of_mem a (List.mem_cons_self b t))]

/-- The degraded fallback emits pages in non-decreasing order. -/
theorem fallbackGo_chain : ∀ (ps : List Page) (n : Int) (seen : List String),
    List.Chain' PDFHeadingAnalyzer.oPageLe (PDFOutlineExtractor.fallbackGo ps n seen)
  | [], _, _ => List.chain'_nil
  | p :: ps, n, seen => by
    simp only [PDFOutlineExtractor.fallbackGo]
    rw [List.chain'_append]
    refine ⟨chain_of_const_page n _ (fallbackPageGo_pages n _ _), fallbackGo_chain ps _ _, ?_⟩
    intro x hx y hy
    have hxn : x.page = n := fallbackPageGo_pages n _ _ x (List.mem_of_mem_getLast? hx)
    have hyn : (n : Int) + 1 ≤ y.page :=
      fallbackGo_pages_ge ps (n + 1) _ y (List.mem_of_mem_head? hy)
    show x.page ≤ y.page
    omega

/-- Claim C2 (amended): the returned outline is non-decreasing in `page`
on the text-analysis path (the helper sorts it) and on the degraded
pattern-only fallback (pages are scanned in order); on the form and
failure paths the outline is empty.  On the embedded-TOC path, however,
the outline merely preserves the TOC's own order and need not be sorted
(see the counterexample). -/
theorem C2_outline_sorted_analysis_and_fallback (doc : Doc) :
    pagesNonDecreasing (PDFHeadingAnalyzer.analyze_pdf_from_doc doc).outline = true ∧
    pagesNonDecreasing (PDFOutlineExtractor._extract_headings_pattern_only doc) = true := by
  constructor
  · exact classify_outline_sorted _
  · rw [pagesNonDecreasing_iff_chain]
    exact fallbackGo_chain doc.pages 1 []

/-- Claim C2, counterexample: `c2doc`'s embedded TOC lists pages
`[5, 2, 9]`; the returned outline keeps that order, so it is not
non-decreasing in `page`. -/
theorem C2_counterexample :
    pagesNonDecreasing (PDFOutlineExtractor.extract_outline (.ok c2doc)).outline = false := by
  decide

/-! ## Claim C4 -/

/-- Claim C4: if the repaired page-1 text (the output of the `re.sub`
repair chain) contains "RFP:" and a quest/Request token, then (first arm)
when the request marker, a proposal marker and the companion keyword
fragments are all present in the repaired text or the original, the
extractor returns the canonical full reconstruction; and (second arm)
when only the RFP and request markers are present — no proposal marker
and not the full companion set — it returns the shorter canonical
partial form.  (In the source the companion flags are computed but
unused; the claim's conditionals nevertheless hold as stated.) -/
theorem C4_rfp_title_reconstruction (s : String) :
    (pyIn "RFP:" (PDFOutlineExtractor.cleanupSubs s) = true →
     (pyIn "quest" (PDFOutlineExtractor.cleanupSubs s) = true ∨
      pyIn "Request" (PDFOutlineExtractor.cleanupSubs s) = true) →
     (pyIn "Request" (PDFOutlineExtractor.cleanupSubs s ++ " " ++ s) = true ∨
      pyIn "quest" (PDFOutlineExtractor.cleanupSubs s ++ " " ++ s) = true ∨
      pyIn "equest" (PDFOutlineExtractor.cleanupSubs s ++ " " ++ s) = true) →
     (pyIn "Proposal" (PDFOutlineExtractor.cleanupSubs s ++ " " ++ s) = true ∨
      pyIn "oposal" (PDFOutlineExtractor.cleanupSubs s ++ " " ++ s) = true) →
     pyIn "Present" (PDFOutlineExtractor.cleanupSubs s ++ " " ++ s) = true →
     pyIn "Developing" (PDFOutlineExtractor.cleanupSubs s ++ " " ++ s) = true →
     pyIn "Business" (PDFOutlineExtractor.cleanupSubs s ++ " " ++ s) = true →
     pyIn "Ontario" (PDFOutlineExtractor.cleanupSubs s ++ " " ++ s) = true →
     pyIn "Digital" (PDFOutlineExtractor.cleanupSubs s ++ " " ++ s) = true →
     pyIn "Library" (PDFOutlineExtractor.cleanupSubs s ++ " " ++ s) = true →
     PDFOutlineExtractor._cleanup_extracted_title s = PDFOutlineExtractor.fullODLTitle) ∧
    (pyIn "RFP:" (PDFOutlineExtractor.cleanupSubs s) = true →
     (pyIn "quest" (PDFOutlineExtractor.cleanupSubs s) = true ∨
      pyIn "Request" (PDFOutlineExtractor.cleanupSubs s) = true) →
     (pyIn "Request" (PDFOutlineExtractor.cleanupSubs s ++ " " ++ s) = true ∨
      pyIn "quest" (PDFOutlineExtractor.cleanupSubs s ++ " " ++ s) = true ∨
      pyIn "equest" (PDFOutlineExtractor.cleanupSubs s ++ " " ++ s) = true) →
     pyIn "Proposal" (PDFOutlineExtractor.cleanupSubs s ++ " " ++ s) = false →
     pyIn "oposal" (PDFOutlineExtractor.cleanupSubs s ++ " " ++ s) = false →
     ¬(pyIn "Present" (PDFOutlineExtractor.cleanupSubs s ++ " " ++ s) = true ∧
       pyIn "Developing" (PDFOutlineExtractor.cleanupSubs s ++ " " ++ s) = true ∧
       pyIn "Business" (PDFOutlineExtractor.cleanupSubs s ++ " " ++ s) = true ∧
       pyIn "Ontario" (PDFOutlineExtractor.cleanupSubs s ++ " " ++ s) = true ∧
       pyIn "Digital" (PDFOutlineExtractor.cleanupSubs s ++ " " ++ s) = true ∧
       pyIn "Library" (PDFOutlineExtractor.cleanupSubs s ++ " " ++ s) = true) →
     PDFOutlineExtractor._cleanup_extracted_title s = PDFOutlineExtractor.partialRFPTitle) := by
  constructor
  · intro h1 h2 h3 h4 _hp _hdv _hb _ho _hdg _hl
    have hs0 : ¬ s = "" := by
      intro h
      subst h
      rw [show PDFOutlineExtractor.cleanupSubs "" = "" from rfl] at h1
      exact absurd h1 (by decide)
    simp only [PDFOutlineExtractor._cleanup_extracted_title]
    rw [if_neg hs0]
    have hcond : (pyIn "RFP:" (PDFOutlineExtractor.cleanupSubs s) &&
        (pyIn "quest" (PDFOutlineExtractor.cleanupSubs s) ||
         pyIn "Request" (PDFOutlineExtractor.cleanupSubs s))) = true := by
      rcases h2 with h2 | h2 <;> simp [h1, h2]
    rw [if_pos hcond]
    have hreq : (pyIn "Request" (PDFOutlineExtractor.cleanupSubs s ++ " " ++ s) ||
        pyIn "quest" (PDFOutlineExtractor.cleanupSubs s ++ " " ++ s) ||
        pyIn "equest" (PDFOutlineExtractor.cleanupSubs s ++ " " ++ s)) = true := by
      rcases h3 with h3 | h3 | h3 <;> simp [h3]
    have hprop : (pyIn "Proposal" (PDFOutlineExtractor.cleanupSubs s ++ " " ++ s) ||
        pyIn "oposal" (PDFOutlineExtractor.cleanupSubs s ++ " " ++ s)) = true := by
      rcases h4 with h4 | h4 <;> simp [h4]
    rw [if_pos (by rw [hreq, hprop]; rfl :
      ((pyIn "Request" (PDFOutlineExtractor.cleanupSubs s ++ " " ++ s) ||
        pyIn "quest" (PDFOutlineExtractor.cleanupSubs s ++ " " ++ s) ||
        pyIn "equest" (PDFOutlineExtractor.cleanupSubs s ++ " " ++ s)) &&
       (pyIn "Proposal" (PDFOutlineExtractor.cleanupSubs s ++ " " ++ s) ||
        pyIn "oposal" (PDFOutlineExtractor.cleanupSubs s ++ " " ++ s))) = true)]
  · intro h1 h2 h3 h4a h4b _hcomp
    have hs0 : ¬ s = "" := by
      intro h
      subst h
      rw [show PDFOutlineExtractor.cleanupSubs "" = "" from rfl] at h1
      exact absurd h1 (by decide)
    simp only [PDFOutlineExtractor._cleanup_extracted_title]
    rw [if_neg hs0]
    have hcond : (pyIn "RFP:" (PDFOutlineExtractor.cleanupSubs s) &&
        (pyIn "quest" (PDFOutlineExtractor.cleanupSubs s) ||
         pyIn "Request" (PDFOutlineExtractor.cleanupSubs s))) = true := by
      rcases h2 with h2 | h2 <;> simp [h1, h2]
    rw [if_pos hcond]
    have hreq : (pyIn "Request" (PDFOutlineExtractor.cleanupSubs s ++ " " ++ s) ||
        pyIn "quest" (PDFOutlineExtractor.cleanupSubs s ++ " " ++ s) ||
        pyIn "equest" (PDFOutlineExtractor.cleanupSubs s ++ " " ++ s)) = true := by
      rcases h3 with h3 | h3 | h3 <;> simp [h3]
    rw [if_neg (by rw [h4a, h4b]; simp :
      ¬ ((pyIn "Request" (PDFOutlineExtractor.cleanupSubs s ++ " " ++ s) ||
          pyIn "quest" (PDFOutlineExtractor.cleanupSubs s ++ " " ++ s) ||
          pyIn "equest" (PDFOutlineExtractor.cleanupSubs s ++ " " ++ s)) &&
         (pyIn "Proposal" (PDFOutlineExtractor.cleanupSubs s ++ " " ++ s) ||
          pyIn "oposal" (PDFOutlineExtractor.cleanupSubs s ++ " " ++ s))) = true)]
    rw [if_pos hreq]

/-- Witness for C4: both arms evaluated — `c4full` reconstructs to the
canonical full title, `c4partial` to the canonical partial form. -/
theorem C4_rfp_title_reconstruction_witness :
    PDFOutlineExtractor._cleanup_extracted_title c4full = PDFOutlineExtractor.fullODLTitle ∧
    PDFOutlineExtractor._cleanup_extracted_title c4partial = PDFOutlineExtractor.partialRFPTitle :=
  ⟨(C4_rfp_title_reconstruction c4full).1 (by decide) (by decide) (by decide) (by decide)
      (by decide) (by decide) (by decide) (by decide) (by decide) (by decide),
   (C4_rfp_title_reconstruction c4partial).2 (by decide) (by decide) (by decide) (by decide)
      (by decide) (by decide)⟩

/-! ## Claim C6 -/

/-- Claim C6, counterexample: the Adjacency Merger is not idempotent.  In
`c6input`, the first pass merges ALPHA and CHARLIE (CHARLIE's top is
10pt below ALPHA's bottom) but not BRAVO (70pt below ALPHA's bottom);
the merged run's union bbox however reaches down to y = 100, so a second
pass finds BRAVO within 30pt and merges again. -/
theorem C6_counterexample :
    PDFHeadingAnalyzer._merge_adjacent_headings
      (PDFHeadingAnalyzer._merge_adjacent_headings c6input) ≠
    PDFHeadingAnalyzer._merge_adjacent_headings c6input := by
  decide

/-- `dropWhile` never lengthens a list. -/
theorem length_dw_le (p : Heading → Bool) (l : List Heading) :
    (l.dropWhile p).length ≤ l.length := by
  conv_rhs => rw [← List.takeWhile_append_dropWhile (p := p) (l := l)]
  rw [List.length_append]
  omega

/-- The merge scan never lengthens a list. -/
theorem mergeLoopF_length_le : ∀ (n : Nat) (l : List Heading), l.length ≤ n →
    (PDFHeadingAnalyzer.mergeLoopF n l).length ≤ l.length := by
  intro n
  induction n with
  | zero =>
    intro l hle
    have h0 : l = [] := List.eq_nil_of_length_eq_zero (Nat.le_zero.mp hle)
    subst h0
    simp [PDFHeadingAnalyzer.mergeLoopF]
  | succ n ih =>
    intro l hle
    cases l with
    | nil => simp [PDFHeadingAnalyzer.mergeLoopF]
    | cons c rest =>
      have hgoal : (PDFHeadingAnalyzer.mergeLoopF (n + 1) (c :: rest)).length =
          1 + (PDFHeadingAnalyzer.mergeLoopF n
            (rest.dropWhile (PDFHeadingAnalyzer._should_merge c))).length := by
        simp [PDFHeadingAnalyzer.mergeLoopF, Nat.add_comm]
      rw [hgoal, List.length_cons]
      have h1 : (rest.dropWhile (PDFHeadingAnalyzer._should_merge c)).length ≤ rest.length :=
        length_dw_le _ _
      have h2 : rest.length ≤ n := by simpa using hle
      have h3 := ih (rest.dropWhile (PDFHeadingAnalyzer._should_merge c)) (le_trans h1 h2)
      omega

/-- If the merge scan preserves the length, no candidate was absorbed and
every run is a singleton (normalised by `mkMerged · []`). -/
theorem mergeLoopF_no_merge : ∀ (n : Nat) (l : List Heading), l.length ≤ n →
    (PDFHeadingAnalyzer.mergeLoopF n l).length = l.length →
    PDFHeadingAnalyzer.mergeLoopF n l = l.map (fun h => PDFHeadingAnalyzer.mkMerged h []) := by
  intro n
  induction n with
  | zero =>
    intro l hle _
    have : l = [] := by
      cases l with
      | nil => rfl
      | cons a t => simp at hle
    subst this
    rfl
  | succ n ih =>
    intro l hle hlen
    cases l with
    | nil => rfl
    | cons c rest =>
      have heq : PDFHeadingAnalyzer.mergeLoopF (n + 1) (c :: rest) =
          PDFHeadingAnalyzer.mkMerged c (rest.takeWhile (PDFHeadingAnalyzer._should_merge c)) ::
          PDFHeadingAnalyzer.mergeLoopF n
            (rest.dropWhile (PDFHeadingAnalyzer._should_merge c)) := by
        simp [PDFHeadingAnalyzer.mergeLoopF]
      rw [heq, List.length_cons, List.length_cons] at hlen
      have hsplit := List.takeWhile_append_dropWhile
        (p := PDFHeadingAnalyzer._should_merge c) (l := rest)
      have hlensum : (rest.takeWhile (PDFHeadingAnalyzer._should_merge c)).length +
          (rest.dropWhile (PDFHeadingAnalyzer._should_merge c)).length = rest.length := by
        rw [← List.length_append, hsplit]
      have hdle : (rest.dropWhile (PDFHeadingAnalyzer._should_merge c)).length ≤ rest.length :=
        length_dw_le _ _
      have h2 : rest.length ≤ n := by simpa using hle
      have hrle := mergeLoopF_length_le n (rest.dropWhile (PDFHeadingAnalyzer._should_merge c))
        (le_trans hdle h2)
      have htake : rest.takeWhile (PDFHeadingAnalyzer._should_merge c) = [] := by
        rw [← List.length_eq_zero]
        omega
      have hdrop : rest.dropWhile (PDFHeadingAnalyzer._should_merge c) = rest := by
        have hs2 := hsplit
        rw [htake, List.nil_append] at hs2
        exact hs2
      rw [heq, htake, hdrop, List.map_cons]
      have hrec := ih rest h2 (by rw [hdrop] at hlen; omega)
      rw [hrec]

/-- If the first pass makes no merges (it preserves the length), it maps
the sorted input through the singleton-run normaliser. -/
theorem merge_eq_of_no_merge (hs : List Heading)
    (hnorm : ∀ h ∈ hs, PDFHeadingAnalyzer.mkMerged h [] = h)
    (hlen : (PDFHeadingAnalyzer._merge_adjacent_headings hs).length = hs.length) :
    PDFHeadingAnalyzer._merge_adjacent_headings hs =
      List.insertionSort PDFHeadingAnalyzer.hKeyLe hs := by
  unfold PDFHeadingAnalyzer._merge_adjacent_headings at hlen ⊢
  have hlen' : (PDFHeadingAnalyzer.mergeLoopF
      (List.insertionSort PDFHeadingAnalyzer.hKeyLe hs).length
      (List.insertionSort PDFHeadingAnalyzer.hKeyLe hs)).length =
      (List.insertionSort PDFHeadingAnalyzer.hKeyLe hs).length := by
    simpa [List.length_insertionSort] using hlen
  have h1 := mergeLoopF_no_merge _ _ (le_refl _) hlen'
  rw [h1]
  have h2 : ∀ h ∈ List.insertionSort PDFHeadingAnalyzer.hKeyLe hs,
      PDFHeadingAnalyzer.mkMerged h [] = h := by
    intro h hm
    exact hnorm h ((List.mem_insertionSort _).mp hm)
  calc (List.insertionSort PDFHeadingAnalyzer.hKeyLe hs).map
        (fun h => PDFHeadingAnalyzer.mkMerged h [])
      = (List.insertionSort PDFHeadingAnalyzer.hKeyLe hs).map id := List.map_congr_left h2
    _ = _ := List.map_id _

/-- Claim C6 (amended): the Adjacency Merger is not idempotent in general
(counterexample: a merged run's union bbox can bring its bottom edge
within 30pt of the next run's top, so a second pass merges further).  It
is idempotent whenever the first pass performs no merges — its output has
the input's length — and the input is in the normal form produced by
candidate extraction (stripped text, empty level, zero confidence). -/
theorem C6_merge_idempotent_when_no_merge (hs : List Heading)
    (hnorm : ∀ h ∈ hs, PDFHeadingAnalyzer.mkMerged h [] = h)
    (hlen : (PDFHeadingAnalyzer._merge_adjacent_headings hs).length = hs.length) :
    PDFHeadingAnalyzer._merge_adjacent_headings
      (PDFHeadingAnalyzer._merge_adjacent_headings hs) =
    PDFHeadingAnalyzer._merge_adjacent_headings hs := by
  have h1 := merge_eq_of_no_merge hs hnorm hlen
  rw [h1]
  have hsorted : List.Sorted PDFHeadingAnalyzer.hKeyLe
      (List.insertionSort PDFHeadingAnalyzer.hKeyLe hs) :=
    List.sorted_insertionSort PDFHeadingAnalyzer.hKeyLe hs
  unfold PDFHeadingAnalyzer._merge_adjacent_headings
  rw [hsorted.insertionSort_eq]
  unfold PDFHeadingAnalyzer._merge_adjacent_headings at h1
  exact h1

/-- Witness for C6: two normal-form headings on different pages are not
merged (the length is preserved), and a second pass changes nothing. -/
theorem C6_merge_idempotent_when_no_merge_witness :
    PDFHeadingAnalyzer._merge_adjacent_headings
      (PDFHeadingAnalyzer._merge_adjacent_headings c6wit) =
    PDFHeadingAnalyzer._merge_adjacent_headings c6wit :=
  C6_merge_idempotent_when_no_merge c6wit (by decide) (by decide)
